import Mathlib

/-!
Verification development for the Siglent oscilloscope waveform-transfer core
(`src/siglentscope/siglentscope.py` and `src/singletscope/singletscope.py`).

Bytes are modelled as natural numbers (values < 256 in every buffer the
instrument produces; decoders reduce mod 256 where the value matters).
Python machine floats are modelled exactly as rationals: float fields are
decoded from their IEEE-754 bit patterns, and float arithmetic is rational
arithmetic.  Python exceptions are modelled by `Option`/`Except` results.
-/

namespace SiglentScope

/-- Python index normalisation for slicing: negative indices count from the
end, and the result is clamped into `[0, n]`. -/
def pyIdxNorm (n : ℕ) (i : ℤ) : ℕ :=
  (max 0 (min (if i < 0 then (n : ℤ) + i else i) n)).toNat

/-- Python slice `bs[a:b]` for integer bounds (negative bounds count from the
end; out-of-range bounds are clamped, never an error). -/
def pySlice {α : Type} (bs : List α) (a b : ℤ) : List α :=
  let s := pyIdxNorm bs.length a
  let e := pyIdxNorm bs.length b
  (bs.drop s).take (e - s)

/-- Python element indexing `bs[i]`: a negative index counts from the end,
and an index that is still out of range raises `IndexError` (here: `none`). -/
def pyGetElem {α : Type} (bs : List α) (i : ℤ) : Option α :=
  let j : ℤ := if i < 0 then (bs.length : ℤ) + i else i
  if 0 ≤ j then bs.get? j.toNat else none

/-- Python `bytes.find(c)`: index of the first occurrence, `-1` if absent. -/
def bfind (bs : List ℕ) (c : ℕ) : ℤ :=
  match bs.findIdx? (fun b => b == c) with
  | some i => (i : ℤ)
  | none => -1

/-- Two's-complement reinterpretation of an unsigned `w`-bit value. -/
def toSigned (w : ℕ) (n : ℕ) : ℤ :=
  if n % 2 ^ w < 2 ^ (w - 1) then (n % 2 ^ w : ℤ) else (n % 2 ^ w : ℤ) - 2 ^ w

/-- Little-endian value of a byte list. -/
def leVal : List ℕ → ℕ
  | [] => 0
  | b :: bs => b % 256 + 256 * leVal bs

/-- `2^e` over ℚ for a possibly negative exponent (computed through ℕ powers,
which evaluate efficiently). -/
def pow2exp (e : ℤ) : ℚ :=
  if 0 ≤ e then ((2 ^ e.toNat : ℕ) : ℚ) else 1 / ((2 ^ (-e).toNat : ℕ) : ℚ)

/-- Exact rational value of an IEEE-754 binary32 bit pattern.  Finite values
are represented exactly.  Exponent-255 patterns (inf/NaN) have no rational
value and are mapped to 0; no claim verified here depends on a descriptor
field holding such a pattern. -/
def float32OfBits (n : ℕ) : ℚ :=
  let sign : ℕ := n / 2 ^ 31 % 2
  let e : ℕ := n / 2 ^ 23 % 2 ^ 8
  let m : ℕ := n % 2 ^ 23
  let mag : ℚ :=
    if e = 0 then (m : ℚ) / ((2 ^ 23 : ℕ) : ℚ) * pow2exp (-126)
    else if e = 255 then 0
    else (1 + (m : ℚ) / ((2 ^ 23 : ℕ) : ℚ)) * pow2exp ((e : ℤ) - 127)
  (if sign = 1 then -1 else 1) * mag

/-- Exact rational value of an IEEE-754 binary64 bit pattern (see
`float32OfBits` for the treatment of inf/NaN patterns). -/
def float64OfBits (n : ℕ) : ℚ :=
  let sign : ℕ := n / 2 ^ 63 % 2
  let e : ℕ := n / 2 ^ 52 % 2 ^ 11
  let m : ℕ := n % 2 ^ 52
  let mag : ℚ :=
    if e = 0 then (m : ℚ) / ((2 ^ 52 : ℕ) : ℚ) * pow2exp (-1022)
    else if e = 2047 then 0
    else (1 + (m : ℚ) / ((2 ^ 52 : ℕ) : ℚ)) * pow2exp ((e : ℤ) - 1023)
  (if sign = 1 then -1 else 1) * mag

/-- `struct.unpack('i', bs)`: 32-bit signed little-endian; `struct.error`
(`none`) unless the buffer is exactly 4 bytes. -/
def unpack_i (bs : List ℕ) : Option ℤ :=
  if bs.length = 4 then some (toSigned 32 (leVal bs)) else none

/-- `struct.unpack('h', bs)`: 16-bit signed little-endian; exactly 2 bytes. -/
def unpack_h (bs : List ℕ) : Option ℤ :=
  if bs.length = 2 then some (toSigned 16 (leVal bs)) else none

/-- `struct.unpack('f', bs)`: little-endian binary32; exactly 4 bytes. -/
def unpack_f (bs : List ℕ) : Option ℚ :=
  if bs.length = 4 then some (float32OfBits (leVal bs)) else none

/-- `struct.unpack('d', bs)`: little-endian binary64; exactly 8 bytes. -/
def unpack_d (bs : List ℕ) : Option ℚ :=
  if bs.length = 8 then some (float64OfBits (leVal bs)) else none

/-- `HORI_NUM`: number of horizontal display divisions. -/
def HORI_NUM : ℚ := 10

/-- `tdiv_enum`: the fixed 40-entry timebase table (seconds per division),
decimal values of the Python float literals. -/
def tdiv_enum : List ℚ :=
  [200 / 10 ^ 12, 500 / 10 ^ 12, 1 / 10 ^ 9,
   2 / 10 ^ 9, 5 / 10 ^ 9, 10 / 10 ^ 9, 20 / 10 ^ 9, 50 / 10 ^ 9,
   100 / 10 ^ 9, 200 / 10 ^ 9, 500 / 10 ^ 9,
   1 / 10 ^ 6, 2 / 10 ^ 6, 5 / 10 ^ 6, 10 / 10 ^ 6, 20 / 10 ^ 6, 50 / 10 ^ 6,
   100 / 10 ^ 6, 200 / 10 ^ 6, 500 / 10 ^ 6,
   1 / 10 ^ 3, 2 / 10 ^ 3, 5 / 10 ^ 3, 10 / 10 ^ 3, 20 / 10 ^ 3, 50 / 10 ^ 3,
   100 / 10 ^ 3, 200 / 10 ^ 3, 500 / 10 ^ 3,
   1, 2, 5, 10, 20, 50, 100, 200, 500, 1000]

/-- The 7-tuple returned by `_parse_preamble` (single-acquisition mode). -/
structure Preamble where
  vdiv : ℚ
  ofst : ℚ
  interval : ℚ
  delay : ℚ
  tdiv : ℚ
  code : ℚ
  adc_bit : ℤ
  deriving Repr, DecidableEq

/-- Embeds `_parse_preamble(recv)` of `src/siglentscope/siglentscope.py`
(`reading_frames=False` path): fixed-offset slices, `struct.unpack` of each
field, then `tdiv_enum[tdiv_index]` with Python list-index semantics.  Any
unpack failure (short slice) or out-of-range table index yields `none`
(Python: `struct.error` / `IndexError`). -/
def siglent_parse_preamble (recv : List ℕ) : Option Preamble := do
  let WAVE_ARRAY_1 := pySlice recv 0x3c (0x3f + 1)
  let wave_array_count := pySlice recv 0x74 (0x77 + 1)
  let first_point := pySlice recv 0x84 (0x87 + 1)
  let sp := pySlice recv 0x88 (0x8b + 1)
  let v_scale := pySlice recv 0x9c (0x9f + 1)
  let v_offset := pySlice recv 0xa0 (0xa3 + 1)
  let interval_b := pySlice recv 0xb0 (0xb3 + 1)
  let code_per_div := pySlice recv 0xa4 (0xa7 + 1)
  let adc_bit_b := pySlice recv 0xac (0xad + 1)
  let delay_b := pySlice recv 0xb4 (0xbb + 1)
  let tdiv_b := pySlice recv 0x144 (0x145 + 1)
  let probe_b := pySlice recv 0x148 (0x14b + 1)
  let _data_bytes ← unpack_i WAVE_ARRAY_1
  let _point_num ← unpack_i wave_array_count
  let _fp ← unpack_i first_point
  let _sp ← unpack_i sp
  let interval ← unpack_f interval_b
  let delay ← unpack_d delay_b
  let tdiv_index ← unpack_h tdiv_b
  let probe ← unpack_f probe_b
  let v_scale_v ← unpack_f v_scale
  let v_offset_v ← unpack_f v_offset
  let code ← unpack_f code_per_div
  let adc_bit ← unpack_h adc_bit_b
  let tdiv ← pyGetElem tdiv_enum tdiv_index
  some { vdiv := v_scale_v * probe, ofst := v_offset_v * probe,
         interval := interval, delay := delay, tdiv := tdiv,
         code := code, adc_bit := adc_bit }

/-- Embeds `_parse_preamble(recv)` of `src/singletscope/singletscope.py`
(which has no `reading_frames` flag; its body is the flag-false path). -/
def singlet_parse_preamble (recv : List ℕ) : Option Preamble := do
  let WAVE_ARRAY_1 := pySlice recv 0x3c (0x3f + 1)
  let wave_array_count := pySlice recv 0x74 (0x77 + 1)
  let first_point := pySlice recv 0x84 (0x87 + 1)
  let sp := pySlice recv 0x88 (0x8b + 1)
  let v_scale := pySlice recv 0x9c (0x9f + 1)
  let v_offset := pySlice recv 0xa0 (0xa3 + 1)
  let interval_b := pySlice recv 0xb0 (0xb3 + 1)
  let code_per_div := pySlice recv 0xa4 (0xa7 + 1)
  let adc_bit_b := pySlice recv 0xac (0xad + 1)
  let delay_b := pySlice recv 0xb4 (0xbb + 1)
  let tdiv_b := pySlice recv 0x144 (0x145 + 1)
  let probe_b := pySlice recv 0x148 (0x14b + 1)
  let _data_bytes ← unpack_i WAVE_ARRAY_1
  let _point_num ← unpack_i wave_array_count
  let _fp ← unpack_i first_point
  let _sp ← unpack_i sp
  let interval ← unpack_f interval_b
  let delay ← unpack_d delay_b
  let tdiv_index ← unpack_h tdiv_b
  let probe ← unpack_f probe_b
  let v_scale_v ← unpack_f v_scale
  let v_offset_v ← unpack_f v_offset
  let code ← unpack_f code_per_div
  let adc_bit ← unpack_h adc_bit_b
  let tdiv ← pyGetElem tdiv_enum tdiv_index
  some { vdiv := v_scale_v * probe, ofst := v_offset_v * probe,
         interval := interval, delay := delay, tdiv := tdiv,
         code := code, adc_bit := adc_bit }

/-- The 10-tuple returned by `_parse_preamble(recv, reading_frames=True)`:
the single-mode 7-tuple plus `one_fram_pts`, `read_frame`, `sum_frame`. -/
structure SeqPreamble where
  pre : Preamble
  one_fram_pts : ℤ
  read_frame : ℤ
  sum_frame : ℤ
  deriving Repr, DecidableEq

/-- The sequence-only fields unpacked first by
`_parse_preamble(recv, reading_frames=True)` (lines 136-150 of
`src/siglentscope/siglentscope.py`): `width`, `order` and `sn` are decoded
but not returned, exactly as in the source; `one_fram_pts`, `read_frame` and
`sum_frame` are returned. -/
def parse_frame_extra (recv : List ℕ) : Option (ℤ × ℤ × ℤ) := do
  let data_width := pySlice recv 0x20 (0x21 + 1)
  let data_order := pySlice recv 0x22 (0x23 + 1)
  let one_fram_pts_b := pySlice recv 0x74 (0x77 + 1)
  let read_frame_b := pySlice recv 0x90 (0x93 + 1)
  let sum_frame_b := pySlice recv 0x94 (0x97 + 1)
  let sn_b := pySlice recv 0xae (0xaf + 1)
  let _width ← unpack_h data_width
  let _order ← unpack_h data_order
  let _sn ← unpack_h sn_b
  let one_fram_pts ← unpack_i one_fram_pts_b
  let read_frame ← unpack_i read_frame_b
  let sum_frame ← unpack_i sum_frame_b
  some (one_fram_pts, read_frame, sum_frame)

/-- Embeds `_parse_preamble(recv, reading_frames=True)` of
`src/siglentscope/siglentscope.py`: the sequence-only fields are unpacked
first (source order), then the common fields — which are exactly the
`reading_frames=False` path, the re-sliced `interval` being byte-identical.
Over `Option` this staged composition returns `none` on exactly the inputs
on which the Python call raises, and the same 10-tuple otherwise. -/
def siglent_parse_preamble_frames (recv : List ℕ) : Option SeqPreamble := do
  let extra ← parse_frame_extra recv
  let p ← siglent_parse_preamble recv
  some { pre := p, one_fram_pts := extra.1, read_frame := extra.2.1,
         sum_frame := extra.2.2 }

/-- Value of a single ASCII digit byte: Python `int(chr(b))`, which raises
`ValueError` on any non-digit character. -/
def digitVal (b : ℕ) : Option ℕ :=
  if 0x30 ≤ b ∧ b ≤ 0x39 then some (b - 0x30) else none

/-- Python `int(bs)` for a bytes object: the ASCII decimal value; `ValueError`
(`none`) on an empty slice or a non-digit byte.  (Python also accepts
surrounding whitespace and a sign; the length fields this code reads are
plain digit runs, which is what is modelled.) -/
def decDigitsVal (bs : List ℕ) : Option ℕ :=
  if bs ≠ [] ∧ bs.all (fun b => decide (0x30 ≤ b ∧ b ≤ 0x39))
  then some (bs.foldl (fun acc b => 10 * acc + (b - 0x30)) 0) else none

/-- ASCII whitespace stripped by Python `bytes.rstrip()`. -/
def isSpaceByte (b : ℕ) : Bool :=
  b == 0x20 || b == 0x09 || b == 0x0a || b == 0x0d || b == 0x0b || b == 0x0c

/-- Python `bytes.rstrip()`: drop trailing ASCII whitespace bytes. -/
def rstrip (bs : List ℕ) : List ℕ :=
  (bs.reverse.dropWhile isSpaceByte).reverse

/-- Per-page payload extraction of `read_waveform_data` (lines 298-303 of
both source files): locate `#`, read the one-digit length-field width, read
the decimal length, and slice exactly that many payload bytes. -/
def extract_payload (recv_rtn : List ℕ) : Option (List ℕ) := do
  let block_start : ℤ := bfind recv_rtn 35 + 2
  let db ← pyGetElem recv_rtn (block_start - 1)
  let data_digit ← digitVal db
  let data_start : ℤ := block_start + data_digit
  let len ← decDigitsVal (pySlice recv_rtn block_start (block_start + data_digit))
  some (pySlice recv_rtn data_start (data_start + len))

/-- Per-page payload extraction of `read_sequence_frame` (lines 224-229 of
`src/siglentscope/siglentscope.py`): the raw response is `rstrip`ped, the
length-field width is read, and everything after the header is taken — the
decimal length itself is never used to bound the slice. -/
def extract_payload_seq (recv_raw : List ℕ) : Option (List ℕ) := do
  let recv_rtn := rstrip recv_raw
  let block_start : ℤ := bfind recv_rtn 35
  let data_digit ← decDigitsVal (pySlice recv_rtn (block_start + 1) (block_start + 2))
  let data_start : ℤ := block_start + 2 + data_digit
  some (pySlice recv_rtn data_start recv_rtn.length)

/-- Big-endian 16-bit signed decoding of consecutive byte pairs
(`struct.unpack(">{n}h", ...)`). -/
def words_be : List ℕ → List ℤ
  | b0 :: b1 :: rest => toSigned 16 (b0 % 256 * 256 + b1 % 256) :: words_be rest
  | _ => []

/-- Little-endian 16-bit signed decoding of consecutive byte pairs: what
`struct.unpack("{n}h", ...)` (native order, no `>`) computes on the
little-endian hosts this code runs on. -/
def words_le : List ℕ → List ℤ
  | b0 :: b1 :: rest => toSigned 16 (b0 % 256 + 256 * (b1 % 256)) :: words_le rest
  | _ => []

/-- `struct.unpack(">{n}h", bs)`: `struct.error` unless `len(bs) = 2*n`. -/
def unpack_words_be (n : ℤ) (bs : List ℕ) : Option (List ℤ) :=
  if (bs.length : ℤ) = 2 * n then some (words_be bs) else none

/-- `struct.unpack("{n}h", bs)` (native byte order, modelled little-endian):
`struct.error` unless `len(bs) = 2*n`. -/
def unpack_words_native (n : ℤ) (bs : List ℕ) : Option (List ℤ) :=
  if (bs.length : ℤ) = 2 * n then some (words_le bs) else none

/-- `struct.unpack("{n}b", bs)`: 8-bit signed; `struct.error` unless
`len(bs) = n`. -/
def unpack_signed_bytes (n : ℤ) (bs : List ℕ) : Option (List ℤ) :=
  if (bs.length : ℤ) = n then some (bs.map (fun b => toSigned 8 b)) else none

/-- The width dispatch of `read_waveform_data` (lines 305-308 of both source
files): `adc_bit > 8` decodes big-endian 16-bit words, the word count being
`int(len(recv_byte)/2)`; otherwise all bytes as 8-bit signed samples. -/
def decode_samples_single (adc_bit : ℤ) (recv_byte : List ℕ) : Option (List ℤ) :=
  if adc_bit > 8 then unpack_words_be ((recv_byte.length / 2 : ℕ) : ℤ) recv_byte
  else unpack_signed_bytes (recv_byte.length : ℤ) recv_byte

/-- The width dispatch of `read_sequence_frame` (lines 234-237 of
`src/siglentscope/siglentscope.py`): exactly `one_frame_pts` samples are
demanded, 16-bit words being decoded in native (little-endian) order. -/
def decode_samples_seq (adc_bit one_frame_pts : ℤ) (data_recv : List ℕ) : Option (List ℤ) :=
  if adc_bit > 8 then unpack_words_native one_frame_pts data_recv
  else unpack_signed_bytes one_frame_pts data_recv

/-- A `(time_value, volt_value)` pair as stored in `channel_data`. -/
abbrev Trace := List ℚ × List ℚ

/-- The `channel_data` dict: insertion-ordered association list. -/
abbrev ChannelMap := List (ℤ × Trace)

/-- Python `dict` lookup `st[k]`. -/
def dictGet (st : ChannelMap) (k : ℤ) : Option Trace :=
  (st.find? (fun p => p.1 == k)).map (fun p => p.2)

/-- Python `k in st`. -/
def dictMem (st : ChannelMap) (k : ℤ) : Bool :=
  st.any (fun p => p.1 == k)

/-- Python `st[k] = v`: replace in place if present, else append. -/
def dictSet (st : ChannelMap) (k : ℤ) (v : Trace) : ChannelMap :=
  if dictMem st k then st.map (fun p => if p.1 == k then (k, v) else p)
  else st ++ [(k, v)]

/-- Embeds `get_channel_data` (identical in both source files): membership
test on the per-channel dict, then the stored pair; `none` models the
`ValueError` Python raises for a missing channel.  The dict is only read. -/
def get_channel_data (st : ChannelMap) (channel : ℤ) : ChannelMap × Option Trace :=
  if dictMem st channel then (st, dictGet st channel) else (st, none)

/-- ASCII directives written to the instrument, one constructor per
`scope.write` command string of the source. -/
inductive Cmd where
  | wavSour (channel : ℤ)
  | wavPreamble
  | wavPoint (n : ℚ)
  | widthByte
  | widthWord
  | wavStart (offset : ℚ)
  | wavData
  | wavSequence (frame : ℤ) (second : ℤ)
  deriving Repr, DecidableEq

/-- Failure classes of a read, matching where the Python exception escapes. -/
inductive ReadErr where
  | descriptorError
  | zeroDivError
  | pageError
  | decodeError
  | timestampError
  deriving Repr, DecidableEq

/-- The page loop of `read_waveform_data` (lines 292-303): for each of the
remaining `k` iterations at loop index `i`, write the page start offset
`i * one_piece_num` and the data request, take the next raw response, strip
its framing and append the payload.  A missing response (transport timeout)
or a framing failure aborts the loop. -/
def wav_data_loop (pages : List (List ℕ)) (one_piece_num : ℚ) :
    ℕ → ℕ → List Cmd × Option (List ℕ)
  | _, 0 => ([], some [])
  | i, k + 1 =>
    let cmds0 : List Cmd := [Cmd.wavStart ((i : ℚ) * one_piece_num), Cmd.wavData]
    match pages.get? i with
    | none => (cmds0, none)
    | some recv_rtn =>
      match extract_payload recv_rtn with
      | none => (cmds0, none)
      | some payload =>
        let r := wav_data_loop pages one_piece_num (i + 1) k
        (cmds0 ++ r.1, r.2.map (fun rest => payload ++ rest))

/-- The page loop of `read_sequence_frame` (lines 220-229): as
`wav_data_loop` but with the sequence-mode payload extraction. -/
def seq_data_loop (pages : List (List ℕ)) (one_piece_num : ℚ) :
    ℕ → ℕ → List Cmd × Option (List ℕ)
  | _, 0 => ([], some [])
  | i, k + 1 =>
    let cmds0 : List Cmd := [Cmd.wavStart ((i : ℚ) * one_piece_num), Cmd.wavData]
    match pages.get? i with
    | none => (cmds0, none)
    | some recv_raw =>
      match extract_payload_seq recv_raw with
      | none => (cmds0, none)
      | some payload =>
        let r := seq_data_loop pages one_piece_num (i + 1) k
        (cmds0 ++ r.1, r.2.map (fun rest => payload ++ rest))

/-- The sample-to-physical conversion of `read_waveform_data` (lines 311-312
of both source files), as a `(time_value, volt_value)` trace. -/
def convert_trace (vdiv ofst interval trdl tdiv vcode_per : ℚ)
    (convert_data : List ℤ) : Trace :=
  ((List.range convert_data.length).map
      (fun (i : ℕ) => -tdiv * HORI_NUM / 2 + (i : ℚ) * interval + trdl),
   convert_data.map (fun (cv : ℤ) => (cv : ℚ) / vcode_per * vdiv - ofst))

/-- `int.from_bytes`-style value of the one-byte fields of the frame
timestamp (`struct.unpack('c', ...)` then `int.from_bytes(..., 'big')`);
`struct.error` unless the slice is exactly one byte. -/
def unpack_c (bs : List ℕ) : Option ℕ :=
  match bs with
  | [b] => some (b % 256)
  | _ => none

/-- Embeds `_main_time_stamp_deal` of `src/siglentscope/siglentscope.py`:
the `(year, months, days, hours, minutes, seconds)` values that Python
interpolates into its timestamp string (the string formatting itself is not
modelled; success and the field values are). -/
def main_time_stamp_deal (time : List ℕ) : Option (ℤ × ℕ × ℕ × ℕ × ℕ × ℚ) := do
  let seconds_b := pySlice time 0x00 0x08
  let minutes_b := pySlice time 0x08 0x09
  let hours_b := pySlice time 0x09 0x0a
  let days_b := pySlice time 0x0a 0x0b
  let months_b := pySlice time 0x0b 0x0c
  let year_b := pySlice time 0x0c 0x0e
  let seconds ← unpack_d seconds_b
  let minutes ← unpack_c minutes_b
  let hours ← unpack_c hours_b
  let days ← unpack_c days_b
  let months ← unpack_c months_b
  let year ← unpack_h year_b
  some (year, months, days, hours, minutes, seconds)

/-- The instrument's responses during one `read_waveform_data` call: the raw
preamble response, the parsed numeric replies to the `:ACQuire:POINts?` and
`:WAVeform:MAXPoint?` queries (Python parses them with `float`), and the
successive raw page responses. -/
structure ScopeEnv where
  preamble_resp : List ℕ
  points : ℚ
  max_point : ℚ
  pages : List (List ℕ)

/-- The instrument's responses during one `read_sequence_frame` call. -/
structure SeqEnv where
  preamble_resp : List ℕ
  max_point : ℚ
  pages : List (List ℕ)

/-- Embeds `read_waveform_data` of `src/siglentscope/siglentscope.py`
(lines 256-317).  Returns the `channel_data` dict after the call, the
directives written, and the result: the stored `(time, volt)` trace, or the
error class at which the Python call raises.  `math.ceil(points /
one_piece_num)` raises `ZeroDivisionError` when the `MAXPoint` reply is 0,
before any further directive is written; the page loop consumes one raw
response per iteration; winning traces are stored only after every fallible
step has succeeded. -/
def siglent_read_waveform_data (env : ScopeEnv) (channel : ℤ) (st : ChannelMap) :
    ChannelMap × List Cmd × Except ReadErr Trace :=
  let cmds0 : List Cmd := [Cmd.wavSour channel, Cmd.wavPreamble]
  let recv := pySlice env.preamble_resp (bfind env.preamble_resp 35 + 11)
    (env.preamble_resp.length : ℤ)
  match siglent_parse_preamble recv with
  | none => (st, cmds0, Except.error ReadErr.descriptorError)
  | some p =>
    if env.max_point = 0 then (st, cmds0, Except.error ReadErr.zeroDivError)
    else
      let read_times := Int.ceil (env.points / env.max_point)
      let cmds1 := cmds0
        ++ (if env.points > env.max_point then [Cmd.wavPoint env.max_point] else [])
        ++ [Cmd.widthByte]
        ++ (if p.adc_bit > 8 then [Cmd.widthWord] else [])
      let loop := wav_data_loop env.pages env.max_point 0 read_times.toNat
      match loop.2 with
      | none => (st, cmds1 ++ loop.1, Except.error ReadErr.pageError)
      | some recv_byte =>
        match decode_samples_single p.adc_bit recv_byte with
        | none => (st, cmds1 ++ loop.1, Except.error ReadErr.decodeError)
        | some convert_data =>
          if p.code = 0 ∧ convert_data ≠ [] then
            (st, cmds1 ++ loop.1, Except.error ReadErr.zeroDivError)
          else
            let tr := convert_trace p.vdiv p.ofst p.interval p.delay p.tdiv p.code
              convert_data
            (dictSet st channel tr, cmds1 ++ loop.1, Except.ok tr)

/-- Embeds `read_waveform_data` of `src/singletscope/singletscope.py`
(lines 110-171), whose body is byte-for-byte that of the siglentscope
version; it calls the singletscope `_parse_preamble`. -/
def singlet_read_waveform_data (env : ScopeEnv) (channel : ℤ) (st : ChannelMap) :
    ChannelMap × List Cmd × Except ReadErr Trace :=
  let cmds0 : List Cmd := [Cmd.wavSour channel, Cmd.wavPreamble]
  let recv := pySlice env.preamble_resp (bfind env.preamble_resp 35 + 11)
    (env.preamble_resp.length : ℤ)
  match singlet_parse_preamble recv with
  | none => (st, cmds0, Except.error ReadErr.descriptorError)
  | some p =>
    if env.max_point = 0 then (st, cmds0, Except.error ReadErr.zeroDivError)
    else
      let read_times := Int.ceil (env.points / env.max_point)
      let cmds1 := cmds0
        ++ (if env.points > env.max_point then [Cmd.wavPoint env.max_point] else [])
        ++ [Cmd.widthByte]
        ++ (if p.adc_bit > 8 then [Cmd.widthWord] else [])
      let loop := wav_data_loop env.pages env.max_point 0 read_times.toNat
      match loop.2 with
      | none => (st, cmds1 ++ loop.1, Except.error ReadErr.pageError)
      | some recv_byte =>
        match decode_samples_single p.adc_bit recv_byte with
        | none => (st, cmds1 ++ loop.1, Except.error ReadErr.decodeError)
        | some convert_data =>
          if p.code = 0 ∧ convert_data ≠ [] then
            (st, cmds1 ++ loop.1, Except.error ReadErr.zeroDivError)
          else
            let tr := convert_trace p.vdiv p.ofst p.interval p.delay p.tdiv p.code
              convert_data
            (dictSet st channel tr, cmds1 ++ loop.1, Except.ok tr)

/-- Embeds `read_sequence_frame` of `src/siglentscope/siglentscope.py`
(lines 172-252).  The descriptor is parsed in frames mode; the conditional
`:WAVeform:POINt` and the width directives are written before
`math.ceil(one_frame_pts / one_piece_num)` is computed (so its
`ZeroDivisionError` escapes after them); the decoded trace is stored in
`channel_data` BEFORE the frame timestamp is parsed, so a timestamp failure
raises with the new trace already stored. -/
def read_sequence_frame (env : SeqEnv) (channel frame_num : ℤ) (st : ChannelMap) :
    ChannelMap × List Cmd × Except ReadErr Trace :=
  let cmds0 : List Cmd := [Cmd.wavSour channel, Cmd.wavStart 0, Cmd.wavPoint 0,
    Cmd.wavSequence frame_num 0, Cmd.wavPreamble]
  let recv := pySlice env.preamble_resp (bfind env.preamble_resp 35 + 11)
    (env.preamble_resp.length : ℤ)
  let time_stamp := pySlice recv 346 (recv.length : ℤ)
  match siglent_parse_preamble_frames recv with
  | none => (st, cmds0, Except.error ReadErr.descriptorError)
  | some sp =>
    let p := sp.pre
    let cmds1 := cmds0
      ++ (if (sp.one_fram_pts : ℚ) > env.max_point then [Cmd.wavPoint env.max_point] else [])
      ++ [Cmd.widthByte]
      ++ (if p.adc_bit > 8 then [Cmd.widthWord] else [])
    if env.max_point = 0 then (st, cmds1, Except.error ReadErr.zeroDivError)
    else
      let read_times := Int.ceil ((sp.one_fram_pts : ℚ) / env.max_point)
      let loop := seq_data_loop env.pages env.max_point 0 read_times.toNat
      match loop.2 with
      | none => (st, cmds1 ++ loop.1, Except.error ReadErr.pageError)
      | some data_recv =>
        match decode_samples_seq p.adc_bit sp.one_fram_pts data_recv with
        | none => (st, cmds1 ++ loop.1, Except.error ReadErr.decodeError)
        | some convert_data =>
          if p.code = 0 ∧ convert_data ≠ [] then
            (st, cmds1 ++ loop.1, Except.error ReadErr.zeroDivError)
          else
            let volt_value := convert_data.map
              (fun (cv : ℤ) => (cv : ℚ) / p.code * p.vdiv - p.ofst)
            let time_value := (List.range convert_data.length).map
              (fun (idx : ℕ) => -(p.tdiv * HORI_NUM / 2) + (idx : ℚ) * p.interval + p.delay)
            let st1 := dictSet st channel (time_value, volt_value)
            match main_time_stamp_deal time_stamp with
            | none => (st1, cmds1 ++ loop.1, Except.error ReadErr.timestampError)
            | some _ts => (st1, cmds1 ++ loop.1, Except.ok (time_value, volt_value))

/-- A 332-byte descriptor buffer, all zero except the timebase-index field. -/
def tdivBuf (b0 b1 : ℕ) : List ℕ :=
  List.replicate 324 0 ++ [b0, b1] ++ List.replicate 6 0

/-- A synthetic descriptor: all zero except adc_bits, the (one-byte)
point-count field, and 1.0f bit patterns for v_scale, code_per_div and
probe; `extra` padding bytes follow the 332-byte span (the sequence reader
reads its frame timestamp from offset 346 of the sliced response). -/
def mkDesc (adc pts extra : ℕ) : List ℕ :=
  List.replicate 116 0 ++ [pts, 0, 0, 0] ++ List.replicate 38 0 ++ [128, 63]
    ++ List.replicate 6 0 ++ [128, 63] ++ List.replicate 4 0 ++ [adc, 0]
    ++ List.replicate 156 0 ++ [128, 63] ++ List.replicate extra 0

/-- A preamble response: the block marker, 10 header filler bytes, then the
descriptor (mirrors `recv_all[recv_all.find(b'#') + 11:]`). -/
def mkResp (desc : List ℕ) : List ℕ := 35 :: (List.replicate 10 0 ++ desc)

/-- A 2-point 8-bit acquisition split into two 1-point pages. -/
def c6env : ScopeEnv := ⟨mkResp (mkDesc 0 2 0), 2, 1, [[35, 49, 49, 65], [35, 49, 49, 66]]⟩

/-- The same acquisition as a sequence frame (2 points per frame). -/
def c6seqEnv : SeqEnv := ⟨mkResp (mkDesc 0 2 28), 1, [[35, 49, 49, 65], [35, 49, 49, 66]]⟩

/-- The trace both complete 2-point reads produce. -/
def c6tr : Trace := ([(-1 : ℚ)/1000000000, (-1 : ℚ)/1000000000], [65, 66])

/-- The directives the complete 2-point single read issues. -/
def c6cmds : List Cmd := [Cmd.wavSour 1, Cmd.wavPreamble, Cmd.wavPoint 1, Cmd.widthByte,
  Cmd.wavStart 0, Cmd.wavData, Cmd.wavStart 1, Cmd.wavData]

/-- The directives the complete 2-point sequence-frame read issues. -/
def c6scmds : List Cmd := [Cmd.wavSour 1, Cmd.wavStart 0, Cmd.wavPoint 0, Cmd.wavSequence 1 0,
  Cmd.wavPreamble, Cmd.wavPoint 1, Cmd.widthByte, Cmd.wavStart 0, Cmd.wavData,
  Cmd.wavStart 1, Cmd.wavData]

/-- The parsed frames-mode descriptor of `c6seqEnv`. -/
def c6sp : SeqPreamble := ⟨⟨1, 0, 0, 0, (1 : ℚ)/5000000000, 1, 0⟩, 2, 0, 0⟩

/-- A 16-bit (adc_bits = 9) one-point sequence frame whose sample bytes are
[0x01, 0x00]. -/
def c5seqEnv : SeqEnv := ⟨mkResp (mkDesc 9 1 28), 2, [[35, 49, 50, 1, 0]]⟩

/-- The trace the 16-bit sequence-frame read produces: the sample decodes to
1 (native little-endian), not 256 (big-endian). -/
def c5str : Trace := ([(-1 : ℚ)/1000000000], [1])

/-- The directives the 16-bit sequence-frame read issues. -/
def c5scmds : List Cmd := [Cmd.wavSour 1, Cmd.wavStart 0, Cmd.wavPoint 0, Cmd.wavSequence 1 0,
  Cmd.wavPreamble, Cmd.widthByte, Cmd.widthWord, Cmd.wavStart 0, Cmd.wavData]

/-- total_points = 2 but the single page carries only one payload byte. -/
def c2env : ScopeEnv := ⟨mkResp (mkDesc 0 0 0), 2, 10, [[35, 49, 49, 65]]⟩

/-- points_per_frame = 2 but the single page carries only one payload byte. -/
def c2senv : SeqEnv := ⟨mkResp (mkDesc 0 2 28), 2, [[35, 49, 49, 65]]⟩

/-- A two-page transfer whose FIRST page has a zero-byte payload ("#10"). -/
def c7env : ScopeEnv := ⟨mkResp (mkDesc 0 0 0), 2, 1, [[35, 49, 48], [35, 49, 49, 65]]⟩

theorem pySlice_length_int {α : Type} (bs : List α) (a b : ℤ)
    (h0 : 0 ≤ a) (hab : a ≤ b) (hb : b ≤ (bs.length : ℤ)) :
    ((pySlice bs a b).length : ℤ) = b - a := by
  unfold pySlice pyIdxNorm
  rw [if_neg (by omega), if_neg (by omega)]
  simp only [List.length_take, List.length_drop]
  omega

set_option maxRecDepth 10000 in
theorem tdiv_enum_length : tdiv_enum.length = 39 := by decide

/-- On a buffer long enough for every preamble field, the parsed
`time_per_division` is exactly the Python table lookup
`tdiv_enum[tdiv_index]` applied to the signed 16-bit index at offset 0x144,
and parsing succeeds exactly when that lookup does. -/
theorem siglent_parse_tdiv_char (recv : List ℕ) (hlen : 332 ≤ recv.length) :
    (siglent_parse_preamble recv).map Preamble.tdiv
      = pyGetElem tdiv_enum (toSigned 16 (leVal (pySlice recv 0x144 (0x145 + 1)))) := by
  have l1 : (pySlice recv (0x3c : ℤ) (0x3f + 1)).length = 4 := by
    have := pySlice_length_int recv 0x3c (0x3f + 1) (by norm_num) (by norm_num) (by omega)
    omega
  have l2 : (pySlice recv (0x74 : ℤ) (0x77 + 1)).length = 4 := by
    have := pySlice_length_int recv 0x74 (0x77 + 1) (by norm_num) (by norm_num) (by omega)
    omega
  have l3 : (pySlice recv (0x84 : ℤ) (0x87 + 1)).length = 4 := by
    have := pySlice_length_int recv 0x84 (0x87 + 1) (by norm_num) (by norm_num) (by omega)
    omega
  have l4 : (pySlice recv (0x88 : ℤ) (0x8b + 1)).length = 4 := by
    have := pySlice_length_int recv 0x88 (0x8b + 1) (by norm_num) (by norm_num) (by omega)
    omega
  have l5 : (pySlice recv (0x9c : ℤ) (0x9f + 1)).length = 4 := by
    have := pySlice_length_int recv 0x9c (0x9f + 1) (by norm_num) (by norm_num) (by omega)
    omega
  have l6 : (pySlice recv (0xa0 : ℤ) (0xa3 + 1)).length = 4 := by
    have := pySlice_length_int recv 0xa0 (0xa3 + 1) (by norm_num) (by norm_num) (by omega)
    omega
  have l7 : (pySlice recv (0xb0 : ℤ) (0xb3 + 1)).length = 4 := by
    have := pySlice_length_int recv 0xb0 (0xb3 + 1) (by norm_num) (by norm_num) (by omega)
    omega
  have l8 : (pySlice recv (0xa4 : ℤ) (0xa7 + 1)).length = 4 := by
    have := pySlice_length_int recv 0xa4 (0xa7 + 1) (by norm_num) (by norm_num) (by omega)
    omega
  have l9 : (pySlice recv (0xac : ℤ) (0xad + 1)).length = 2 := by
    have := pySlice_length_int recv 0xac (0xad + 1) (by norm_num) (by norm_num) (by omega)
    omega
  have l10 : (pySlice recv (0xb4 : ℤ) (0xbb + 1)).length = 8 := by
    have := pySlice_length_int recv 0xb4 (0xbb + 1) (by norm_num) (by norm_num) (by omega)
    omega
  have l11 : (pySlice recv (0x144 : ℤ) (0x145 + 1)).length = 2 := by
    have := pySlice_length_int recv 0x144 (0x145 + 1) (by norm_num) (by norm_num) (by omega)
    omega
  have l12 : (pySlice recv (0x148 : ℤ) (0x14b + 1)).length = 4 := by
    have := pySlice_length_int recv 0x148 (0x14b + 1) (by norm_num) (by norm_num) (by omega)
    omega
  unfold siglent_parse_preamble
  simp only [unpack_i, unpack_f, unpack_h, unpack_d, l1, l2, l3, l4, l5, l6, l7, l8,
    l9, l10, l11, l12, if_true]
  cases hv : pyGetElem tdiv_enum (toSigned 16 (leVal (pySlice recv 0x144 (0x145 + 1)))) <;>
    (simp [hv]; exact hv)

/-- C1 (amended): the timebase table has 39 entries, not 40.  For every
descriptor buffer of at least 332 bytes whose index field encodes i with
i < 39, decoding returns exactly the i-th table entry as time_per_division;
an encoded index in [39, 256) — in particular 39 and 40 — makes decoding
raise (no value); but the encoded index -1 does NOT raise: Python negative
indexing silently returns the last table entry, 1000 s/div. -/
theorem C1_tdiv_lookup_amended :
    tdiv_enum.length = 39 ∧
    (∀ recv i, 332 ≤ recv.length → i < 39 →
       pySlice recv 0x144 (0x145 + 1) = [i, 0] →
       (siglent_parse_preamble recv).map Preamble.tdiv = tdiv_enum[i]?) ∧
    (∀ recv i, 332 ≤ recv.length → 39 ≤ i → i < 256 →
       pySlice recv 0x144 (0x145 + 1) = [i, 0] →
       siglent_parse_preamble recv = none) ∧
    (∀ recv, 332 ≤ recv.length →
       pySlice recv 0x144 (0x145 + 1) = [255, 255] →
       (siglent_parse_preamble recv).map Preamble.tdiv = some 1000) := by
  refine ⟨tdiv_enum_length, ?_, ?_, ?_⟩
  · intro recv i hlen hi htd
    rw [siglent_parse_tdiv_char recv hlen, htd]
    have hlv : leVal [i, 0] = i := by
      simp [leVal]
      omega
    have hts : toSigned 16 (leVal [i, 0]) = (i : ℤ) := by
      rw [hlv]
      unfold toSigned
      rw [if_pos (by omega)]
      omega
    rw [hts]
    simp only [pyGetElem]
    rw [if_neg (by omega : ¬ ((i : ℤ) < 0)), if_pos (by omega : (0 : ℤ) ≤ (i : ℤ))]
    simp [List.get?_eq_getElem?]
  · intro recv i hlen hi hi2 htd
    have hchar := siglent_parse_tdiv_char recv hlen
    rw [htd] at hchar
    have hlv : leVal [i, 0] = i := by
      simp [leVal]
      omega
    have hts : toSigned 16 (leVal [i, 0]) = (i : ℤ) := by
      rw [hlv]
      unfold toSigned
      rw [if_pos (by omega)]
      omega
    rw [hts] at hchar
    have hnone : pyGetElem tdiv_enum (i : ℤ) = none := by
      simp only [pyGetElem]
      rw [if_neg (by omega : ¬ ((i : ℤ) < 0)), if_pos (by omega : (0 : ℤ) ≤ (i : ℤ))]
      rw [List.get?_eq_getElem?]
      refine List.getElem?_eq_none ?_
      rw [tdiv_enum_length]
      omega
    rw [hnone] at hchar
    exact Option.map_eq_none'.mp hchar
  · intro recv hlen htd
    have hchar := siglent_parse_tdiv_char recv hlen
    rw [htd] at hchar
    have hts : toSigned 16 (leVal [255, 255]) = (-1 : ℤ) := by decide
    rw [hts] at hchar
    have hneg : pyGetElem tdiv_enum (-1 : ℤ) = some 1000 := by
      simp only [pyGetElem]
      rw [if_pos (by decide : (-1 : ℤ) < 0)]
      rw [tdiv_enum_length]
      norm_num
      decide
    rw [hneg] at hchar
    exact hchar


set_option maxRecDepth 10000 in
/-- C1 counterexample: the claim fails on the code in both directions.
Index 39 lies in the claimed valid range [0,40) but decoding raises
(the table has only 39 entries); index -1 is claimed to raise but decoding
returns the last table entry 1000 instead. -/
theorem C1_tdiv_counterexample :
    siglent_parse_preamble (tdivBuf 39 0) = none ∧
    (siglent_parse_preamble (tdivBuf 255 255)).map Preamble.tdiv = some 1000 := by
  constructor <;> rfl

set_option maxRecDepth 10000 in
/-- C1 witness: the amended theorem applied at index 5 and index 40. -/
theorem C1_tdiv_witness :
    (siglent_parse_preamble (tdivBuf 5 0)).map Preamble.tdiv = tdiv_enum[5]? ∧
    siglent_parse_preamble (tdivBuf 40 0) = none := by
  constructor
  · exact C1_tdiv_lookup_amended.2.1 (tdivBuf 5 0) 5 (by rfl) (by norm_num) (by rfl)
  · exact C1_tdiv_lookup_amended.2.2.1 (tdivBuf 40 0) 40 (by rfl) (by norm_num)
      (by norm_num) (by rfl)

/-- C4: for every decoded descriptor with nonzero code_per_division and every
list of N raw codes, the sample converter yields a trace of length N with
voltage[i] = (code[i] / code_per_division) * vertical_scale - vertical_offset
and time[i] = -(time_per_division * 10 / 2) + i * sample_interval +
trigger_delay, including N = 0. -/
theorem C4_sample_converter (vdiv ofst interval trdl tdiv vcode_per : ℚ)
    (codes : List ℤ) (hcode : vcode_per ≠ 0) :
    (convert_trace vdiv ofst interval trdl tdiv vcode_per codes).1.length = codes.length ∧
    (convert_trace vdiv ofst interval trdl tdiv vcode_per codes).2.length = codes.length ∧
    ∀ i, (h : i < codes.length) →
      (convert_trace vdiv ofst interval trdl tdiv vcode_per codes).2[i]? =
        some ((codes[i] : ℚ) / vcode_per * vdiv - ofst) ∧
      (convert_trace vdiv ofst interval trdl tdiv vcode_per codes).1[i]? =
        some (-(tdiv * 10 / 2) + (i : ℚ) * interval + trdl) := by
  refine ⟨by simp only [convert_trace, List.length_map, List.length_range],
          by simp only [convert_trace, List.length_map], ?_⟩
  intro i h
  constructor
  · simp only [convert_trace, List.getElem?_map, List.getElem?_eq_getElem h,
      Option.map_some']
  · have hr : i < (List.range codes.length).length := by
      simpa using h
    simp only [convert_trace, List.getElem?_map, List.getElem?_eq_getElem hr,
      Option.map_some', List.getElem_range, HORI_NUM, Option.some.injEq]
    ring

/-- C4 witness: the converter theorem applied at a concrete descriptor and
two raw codes, checking length and the sample formulas at index 1. -/
theorem C4_sample_converter_witness :
    (convert_trace 2 3 4 5 6 25 [0, 50]).1.length = 2 ∧
    (convert_trace 2 3 4 5 6 25 [0, 50]).2[1]? = some (((50 : ℤ) : ℚ) / 25 * 2 - 3) ∧
    (convert_trace 2 3 4 5 6 25 [0, 50]).1[1]? = some (-(6 * 10 / 2) + (1 : ℚ) * 4 + 5) := by
  have h := C4_sample_converter 2 3 4 5 6 25 [0, 50] (by norm_num)
  exact ⟨h.1, (h.2.2 1 (by norm_num)).1, (h.2.2 1 (by norm_num)).2⟩

/-- C9: the singletscope copies of the preamble parser and the waveform
reader are behaviorally identical to the siglentscope ones: equal outputs on
every input buffer, and equal state, directives and result on every
environment, channel and stored map. -/
theorem C9_duplicate_equivalence :
    (∀ recv, singlet_parse_preamble recv = siglent_parse_preamble recv) ∧
    (∀ env channel st,
       singlet_read_waveform_data env channel st = siglent_read_waveform_data env channel st) :=
  ⟨fun _ => rfl, fun _ _ _ => rfl⟩

theorem dictMem_false_dictGet (st : ChannelMap) (k : ℤ) (h : dictMem st k = false) :
    dictGet st k = none := by
  unfold dictGet
  rw [List.find?_eq_none.mpr]
  · rfl
  · intro x hx
    unfold dictMem at h
    rw [List.any_eq_false] at h
    simpa using h x hx

/-- C10: `get_channel_data` returns the stored pair exactly when one exists,
models Python's ValueError (`none`) when none does, and never changes the
stored map. -/
theorem C10_get_channel_data (st : ChannelMap) (channel : ℤ) :
    (get_channel_data st channel).1 = st ∧
    (∀ tr, dictGet st channel = some tr → (get_channel_data st channel).2 = some tr) ∧
    (dictGet st channel = none → (get_channel_data st channel).2 = none) := by
  refine ⟨?_, ?_, ?_⟩
  · unfold get_channel_data
    split <;> rfl
  · intro tr htr
    unfold get_channel_data
    split
    · exact htr
    · rename_i hm
      rw [dictMem_false_dictGet st channel (by simpa using hm)] at htr
      cases htr
  · intro hn
    unfold get_channel_data
    split
    · exact hn
    · rfl

/-- C10 witness: a stored channel is returned, a missing one yields the
error, the map is untouched. -/
theorem C10_get_channel_data_witness :
    (get_channel_data [(1, ([0], [0]))] 1).2 = some ([0], [0]) ∧
    (get_channel_data [(1, ([0], [0]))] 2).2 = none ∧
    (get_channel_data [(1, ([0], [0]))] 2).1 = [(1, ([0], [0]))] := by
  refine ⟨(C10_get_channel_data [(1, ([0], [0]))] 1).2.1 ([0], [0]) (by rfl),
          (C10_get_channel_data [(1, ([0], [0]))] 2).2.2 (by rfl),
          (C10_get_channel_data [(1, ([0], [0]))] 2).1⟩


theorem wav_loop_count (pages : List (List ℕ)) (mpp : ℚ) :
    ∀ k i acc, (wav_data_loop pages mpp i k).2 = some acc →
      (wav_data_loop pages mpp i k).1.count Cmd.wavData = k := by
  intro k
  induction k with
  | zero => intro i acc _; rfl
  | succ n ih =>
    intro i acc h
    unfold wav_data_loop at h ⊢
    cases hp : pages.get? i with
    | none => rw [hp] at h; dsimp only at h; cases h
    | some page =>
      rw [hp] at h
      dsimp only at h ⊢
      cases he : extract_payload page with
      | none => rw [he] at h; dsimp only at h; cases h
      | some payload =>
        rw [he] at h
        dsimp only at h ⊢
        cases hr : (wav_data_loop pages mpp (i + 1) n).2 with
        | none => rw [hr] at h; cases h
        | some acc2 =>
          rw [List.count_append]
          rw [ih (i + 1) acc2 hr]
          have hc1 : List.count Cmd.wavData [Cmd.wavStart ((i : ℚ) * mpp), Cmd.wavData] = 1 := rfl
          omega

theorem wav_loop_mem_start (pages : List (List ℕ)) (mpp : ℚ) :
    ∀ k i acc, (wav_data_loop pages mpp i k).2 = some acc →
      ∀ j, j < k → Cmd.wavStart (((i + j : ℕ) : ℚ) * mpp) ∈ (wav_data_loop pages mpp i k).1 := by
  intro k
  induction k with
  | zero => intro i acc _ j hj; omega
  | succ n ih =>
    intro i acc h j hj
    unfold wav_data_loop at h ⊢
    cases hp : pages.get? i with
    | none => rw [hp] at h; dsimp only at h; cases h
    | some page =>
      rw [hp] at h
      dsimp only at h ⊢
      cases he : extract_payload page with
      | none => rw [he] at h; dsimp only at h; cases h
      | some payload =>
        rw [he] at h
        dsimp only at h ⊢
        cases hr : (wav_data_loop pages mpp (i + 1) n).2 with
        | none => rw [hr] at h; cases h
        | some acc2 =>
          rcases Nat.eq_zero_or_pos j with hj0 | hjp
          · subst hj0
            simp
          · have hj2 : j - 1 < n := by omega
            have hmem := ih (i + 1) acc2 hr (j - 1) hj2
            have harg : ((i + 1 + (j - 1) : ℕ) : ℚ) = ((i + j : ℕ) : ℚ) := by
              congr 1
              omega
            rw [harg] at hmem
            exact List.mem_cons_of_mem _ (List.mem_cons_of_mem _ hmem)

theorem wav_loop_cmds_shape (pages : List (List ℕ)) (mpp : ℚ) :
    ∀ k i, ∀ c ∈ (wav_data_loop pages mpp i k).1,
      c = Cmd.wavData ∨ ∃ q, c = Cmd.wavStart q := by
  intro k
  induction k with
  | zero => intro i c hc; cases hc
  | succ n ih =>
    intro i c hc
    unfold wav_data_loop at hc
    cases hp : pages.get? i with
    | none =>
      rw [hp] at hc
      dsimp only at hc
      simp at hc
      rcases hc with rfl | rfl
      · exact Or.inr ⟨_, rfl⟩
      · exact Or.inl rfl
    | some page =>
      rw [hp] at hc
      dsimp only at hc
      cases he : extract_payload page with
      | none =>
        rw [he] at hc
        dsimp only at hc
        simp at hc
        rcases hc with rfl | rfl
        · exact Or.inr ⟨_, rfl⟩
        · exact Or.inl rfl
      | some payload =>
        rw [he] at hc
        dsimp only at hc
        rw [List.mem_append] at hc
        rcases hc with hc | hc
        · simp at hc
          rcases hc with rfl | rfl
          · exact Or.inr ⟨_, rfl⟩
          · exact Or.inl rfl
        · exact ih (i + 1) c hc


set_option maxHeartbeats 1000000 in
theorem seq_loop_count (pages : List (List ℕ)) (mpp : ℚ) :
    ∀ k i acc, (seq_data_loop pages mpp i k).2 = some acc →
      (seq_data_loop pages mpp i k).1.count Cmd.wavData = k := by
  intro k
  induction k with
  | zero => intro i acc _; rfl
  | succ n ih =>
    intro i acc h
    unfold seq_data_loop at h ⊢
    cases hp : pages.get? i with
    | none => rw [hp] at h; dsimp only at h; cases h
    | some page =>
      rw [hp] at h
      dsimp only at h ⊢
      cases he : extract_payload_seq page with
      | none => rw [he] at h; dsimp only at h; cases h
      | some payload =>
        rw [he] at h
        dsimp only at h ⊢
        cases hr : (seq_data_loop pages mpp (i + 1) n).2 with
        | none => rw [hr] at h; cases h
        | some acc2 =>
          rw [List.count_append]
          rw [ih (i + 1) acc2 hr]
          have hc1 : List.count Cmd.wavData [Cmd.wavStart ((i : ℚ) * mpp), Cmd.wavData] = 1 := rfl
          omega

set_option maxHeartbeats 1000000 in
theorem seq_loop_mem_start (pages : List (List ℕ)) (mpp : ℚ) :
    ∀ k i acc, (seq_data_loop pages mpp i k).2 = some acc →
      ∀ j, j < k → Cmd.wavStart (((i + j : ℕ) : ℚ) * mpp) ∈ (seq_data_loop pages mpp i k).1 := by
  intro k
  induction k with
  | zero => intro i acc _ j hj; omega
  | succ n ih =>
    intro i acc h j hj
    unfold seq_data_loop at h ⊢
    cases hp : pages.get? i with
    | none => rw [hp] at h; dsimp only at h; cases h
    | some page =>
      rw [hp] at h
      dsimp only at h ⊢
      cases he : extract_payload_seq page with
      | none => rw [he] at h; dsimp only at h; cases h
      | some payload =>
        rw [he] at h
        dsimp only at h ⊢
        cases hr : (seq_data_loop pages mpp (i + 1) n).2 with
        | none => rw [hr] at h; cases h
        | some acc2 =>
          rcases Nat.eq_zero_or_pos j with hj0 | hjp
          · subst hj0
            simp
          · have hj2 : j - 1 < n := by omega
            have hmem := ih (i + 1) acc2 hr (j - 1) hj2
            have harg : ((i + 1 + (j - 1) : ℕ) : ℚ) = ((i + j : ℕ) : ℚ) := by
              congr 1
              omega
            rw [harg] at hmem
            exact List.mem_cons_of_mem _ (List.mem_cons_of_mem _ hmem)

set_option maxHeartbeats 1000000 in
theorem seq_loop_cmds_shape (pages : List (List ℕ)) (mpp : ℚ) :
    ∀ k i, ∀ c ∈ (seq_data_loop pages mpp i k).1,
      c = Cmd.wavData ∨ ∃ q, c = Cmd.wavStart q := by
  intro k
  induction k with
  | zero => intro i c hc; cases hc
  | succ n ih =>
    intro i c hc
    unfold seq_data_loop at hc
    cases hp : pages.get? i with
    | none =>
      rw [hp] at hc
      dsimp only at hc
      simp at hc
      rcases hc with rfl | rfl
      · exact Or.inr ⟨_, rfl⟩
      · exact Or.inl rfl
    | some page =>
      rw [hp] at hc
      dsimp only at hc
      cases he : extract_payload_seq page with
      | none =>
        rw [he] at hc
        dsimp only at hc
        simp at hc
        rcases hc with rfl | rfl
        · exact Or.inr ⟨_, rfl⟩
        · exact Or.inl rfl
      | some payload =>
        rw [he] at hc
        dsimp only at hc
        rw [List.mem_append] at hc
        rcases hc with hc | hc
        · simp at hc
          rcases hc with rfl | rfl
          · exact Or.inr ⟨_, rfl⟩
          · exact Or.inl rfl
        · exact ih (i + 1) c hc

theorem siglent_read_ok_shape (env : ScopeEnv) (channel : ℤ) (st st2 : ChannelMap)
    (cmds : List Cmd) (tr : Trace)
    (h : siglent_read_waveform_data env channel st = (st2, cmds, Except.ok tr)) :
    ∃ p acc samples,
      siglent_parse_preamble (pySlice env.preamble_resp (bfind env.preamble_resp 35 + 11)
        (env.preamble_resp.length : ℤ)) = some p ∧
      ¬ env.max_point = 0 ∧
      (wav_data_loop env.pages env.max_point 0
        (Int.ceil (env.points / env.max_point)).toNat).2 = some acc ∧
      decode_samples_single p.adc_bit acc = some samples ∧
      cmds = [Cmd.wavSour channel, Cmd.wavPreamble]
        ++ (if env.points > env.max_point then [Cmd.wavPoint env.max_point] else [])
        ++ [Cmd.widthByte]
        ++ (if p.adc_bit > 8 then [Cmd.widthWord] else [])
        ++ (wav_data_loop env.pages env.max_point 0
             (Int.ceil (env.points / env.max_point)).toNat).1 ∧
      tr = convert_trace p.vdiv p.ofst p.interval p.delay p.tdiv p.code samples ∧
      st2 = dictSet st channel tr := by
  unfold siglent_read_waveform_data at h
  dsimp only at h
  cases hp : siglent_parse_preamble (pySlice env.preamble_resp (bfind env.preamble_resp 35 + 11)
      (env.preamble_resp.length : ℤ)) with
  | none =>
    rw [hp] at h
    dsimp only at h
    simp at h
  | some p =>
    rw [hp] at h
    dsimp only at h
    by_cases hz : env.max_point = 0
    · rw [if_pos hz] at h
      simp at h
    · rw [if_neg hz] at h
      cases hacc : (wav_data_loop env.pages env.max_point 0
          (Int.ceil (env.points / env.max_point)).toNat).2 with
      | none =>
        rw [hacc] at h
        dsimp only at h
        simp at h
      | some acc =>
        rw [hacc] at h
        dsimp only at h
        cases hdec : decode_samples_single p.adc_bit acc with
        | none =>
          rw [hdec] at h
          dsimp only at h
          simp at h
        | some samples =>
          rw [hdec] at h
          dsimp only at h
          by_cases hcz : p.code = 0 ∧ samples ≠ []
          · rw [if_pos hcz] at h
            simp at h
          · rw [if_neg hcz] at h
            simp only [Prod.mk.injEq, Except.ok.injEq] at h
            obtain ⟨hst, hcmds, htr⟩ := h
            refine ⟨p, acc, samples, rfl, hz, rfl, hdec, hcmds.symm, htr.symm, ?_⟩
            rw [← hst, htr]


set_option maxHeartbeats 1000000 in
theorem seq_read_ok_shape (env : SeqEnv) (channel frame_num : ℤ) (st st2 : ChannelMap)
    (cmds : List Cmd) (tr : Trace)
    (h : read_sequence_frame env channel frame_num st = (st2, cmds, Except.ok tr)) :
    ∃ sp acc samples ts,
      siglent_parse_preamble_frames (pySlice env.preamble_resp (bfind env.preamble_resp 35 + 11)
        (env.preamble_resp.length : ℤ)) = some sp ∧
      ¬ env.max_point = 0 ∧
      (seq_data_loop env.pages env.max_point 0
        (Int.ceil ((sp.one_fram_pts : ℚ) / env.max_point)).toNat).2 = some acc ∧
      decode_samples_seq sp.pre.adc_bit sp.one_fram_pts acc = some samples ∧
      main_time_stamp_deal (pySlice (pySlice env.preamble_resp (bfind env.preamble_resp 35 + 11)
        (env.preamble_resp.length : ℤ)) 346
        ((pySlice env.preamble_resp (bfind env.preamble_resp 35 + 11)
          (env.preamble_resp.length : ℤ)).length : ℤ)) = some ts ∧
      cmds = [Cmd.wavSour channel, Cmd.wavStart 0, Cmd.wavPoint 0, Cmd.wavSequence frame_num 0,
          Cmd.wavPreamble]
        ++ (if (sp.one_fram_pts : ℚ) > env.max_point then [Cmd.wavPoint env.max_point] else [])
        ++ [Cmd.widthByte]
        ++ (if sp.pre.adc_bit > 8 then [Cmd.widthWord] else [])
        ++ (seq_data_loop env.pages env.max_point 0
             (Int.ceil ((sp.one_fram_pts : ℚ) / env.max_point)).toNat).1 ∧
      tr = ((List.range samples.length).map
              (fun (idx : ℕ) => -(sp.pre.tdiv * HORI_NUM / 2) + (idx : ℚ) * sp.pre.interval
                + sp.pre.delay),
            samples.map (fun (cv : ℤ) => (cv : ℚ) / sp.pre.code * sp.pre.vdiv - sp.pre.ofst)) ∧
      st2 = dictSet st channel tr := by
  unfold read_sequence_frame at h
  dsimp only at h
  cases hp : siglent_parse_preamble_frames (pySlice env.preamble_resp
      (bfind env.preamble_resp 35 + 11) (env.preamble_resp.length : ℤ)) with
  | none =>
    rw [hp] at h
    dsimp only at h
    simp at h
  | some sp =>
    rw [hp] at h
    dsimp only at h
    by_cases hz : env.max_point = 0
    · rw [if_pos hz] at h
      simp at h
    · rw [if_neg hz] at h
      cases hacc : (seq_data_loop env.pages env.max_point 0
          (Int.ceil ((sp.one_fram_pts : ℚ) / env.max_point)).toNat).2 with
      | none =>
        rw [hacc] at h
        dsimp only at h
        simp at h
      | some acc =>
        rw [hacc] at h
        dsimp only at h
        cases hdec : decode_samples_seq sp.pre.adc_bit sp.one_fram_pts acc with
        | none =>
          rw [hdec] at h
          dsimp only at h
          simp at h
        | some samples =>
          rw [hdec] at h
          dsimp only at h
          by_cases hcz : sp.pre.code = 0 ∧ samples ≠ []
          · rw [if_pos hcz] at h
            simp at h
          · rw [if_neg hcz] at h
            cases hts : main_time_stamp_deal (pySlice (pySlice env.preamble_resp
                (bfind env.preamble_resp 35 + 11) (env.preamble_resp.length : ℤ)) 346
                ((pySlice env.preamble_resp (bfind env.preamble_resp 35 + 11)
                  (env.preamble_resp.length : ℤ)).length : ℤ)) with
            | none =>
              rw [hts] at h
              dsimp only at h
              simp at h
            | some ts =>
              rw [hts] at h
              dsimp only at h
              simp only [Prod.mk.injEq, Except.ok.injEq] at h
              obtain ⟨hst, hcmds, htr⟩ := h
              refine ⟨sp, acc, samples, ts, rfl, hz, hacc, hdec, rfl, hcmds.symm, htr.symm, ?_⟩
              rw [← hst, htr]


/-- C8: a read that fails leaves the per-channel map exactly as it was.  For
the single-acquisition reader this holds for every error; for the
sequence-frame reader it holds for every error of the stages the claim
enumerates (descriptor decode, page fetches, sample decode — all errors
except the post-store timestamp parse, which is outside the claim's scope
and in the source happens after the store). -/
theorem C8_failed_read_preserves_map :
    (∀ (env : ScopeEnv) (channel : ℤ) (st : ChannelMap) (e : ReadErr),
       (siglent_read_waveform_data env channel st).2.2 = Except.error e →
       (siglent_read_waveform_data env channel st).1 = st) ∧
    (∀ (env : SeqEnv) (channel frame_num : ℤ) (st : ChannelMap) (e : ReadErr),
       e ≠ ReadErr.timestampError →
       (read_sequence_frame env channel frame_num st).2.2 = Except.error e →
       (read_sequence_frame env channel frame_num st).1 = st) := by
  constructor
  · intro env channel st e
    unfold siglent_read_waveform_data
    dsimp only
    split
    · intro _
      rfl
    · split
      · intro _
        rfl
      · split
        · intro _
          rfl
        · split
          · intro _
            rfl
          · split
            · intro _
              rfl
            · intro h
              cases h
  · intro env channel frame_num st e hne
    unfold read_sequence_frame
    dsimp only
    split
    · intro _
      rfl
    · split
      · intro _
        rfl
      · split
        · intro _
          rfl
        · split
          · intro _
            rfl
          · split
            · intro _
              rfl
            · split
              · intro h
                cases h
                exact absurd rfl hne
              · intro h
                cases h

/-- C8 witness: a failing descriptor decode (empty response) leaves a
nonempty stored map untouched, in both readers. -/
theorem C8_failed_read_preserves_map_witness :
    (siglent_read_waveform_data ⟨[], 0, 0, []⟩ 1 [(1, ([0], [0]))]).1 = [(1, ([0], [0]))] ∧
    (read_sequence_frame ⟨[], 0, []⟩ 1 1 [(2, ([1], [1]))]).1 = [(2, ([1], [1]))] :=
  ⟨C8_failed_read_preserves_map.1 ⟨[], 0, 0, []⟩ 1 [(1, ([0], [0]))]
     ReadErr.descriptorError rfl,
   C8_failed_read_preserves_map.2 ⟨[], 0, []⟩ 1 1 [(2, ([1], [1]))]
     ReadErr.descriptorError (by decide) rfl⟩


/-- C6: a complete block transfer with total_points = P and max_page_points
= M issues exactly ceil(P/M) page requests, the j-th page's start offset
being j*M; a complete sequence-frame transfer with points_per_frame = F > M
does the same with ceil(F/M). -/
theorem C6_pagination :
    (∀ (P M : ℕ) (env : ScopeEnv) (channel : ℤ) (st st2 : ChannelMap)
       (cmds : List Cmd) (tr : Trace),
       0 < P → 0 < M → env.points = (P : ℚ) → env.max_point = (M : ℚ) →
       siglent_read_waveform_data env channel st = (st2, cmds, Except.ok tr) →
       cmds.count Cmd.wavData = (Int.ceil ((P : ℚ) / (M : ℚ))).toNat ∧
       (∀ j, j < (Int.ceil ((P : ℚ) / (M : ℚ))).toNat →
          Cmd.wavStart ((j : ℚ) * (M : ℚ)) ∈ cmds)) ∧
    (∀ (F M : ℕ) (env : SeqEnv) (channel frame_num : ℤ) (st st2 : ChannelMap)
       (cmds : List Cmd) (tr : Trace) (sp : SeqPreamble),
       0 < M →
       siglent_parse_preamble_frames (pySlice env.preamble_resp
         (bfind env.preamble_resp 35 + 11) (env.preamble_resp.length : ℤ)) = some sp →
       sp.one_fram_pts = (F : ℤ) → (M : ℚ) < (F : ℚ) → env.max_point = (M : ℚ) →
       read_sequence_frame env channel frame_num st = (st2, cmds, Except.ok tr) →
       cmds.count Cmd.wavData = (Int.ceil ((F : ℚ) / (M : ℚ))).toNat ∧
       (∀ j, j < (Int.ceil ((F : ℚ) / (M : ℚ))).toNat →
          Cmd.wavStart ((j : ℚ) * (M : ℚ)) ∈ cmds)) := by
  constructor
  · intro P M env channel st st2 cmds tr hP hM hpts hmax hread
    obtain ⟨p, acc, samples, hp, hz, hacc, hdec, hcmds, htr, hst⟩ :=
      siglent_read_ok_shape env channel st st2 cmds tr hread
    subst hcmds
    have hcount := wav_loop_count env.pages env.max_point
      ((Int.ceil (env.points / env.max_point)).toNat) 0 acc hacc
    have e1 : List.count Cmd.wavData [Cmd.wavSour channel, Cmd.wavPreamble] = 0 := rfl
    have e3 : List.count Cmd.wavData [Cmd.widthByte] = 0 := rfl
    have e2 : List.count Cmd.wavData
        (if env.points > env.max_point then [Cmd.wavPoint env.max_point] else []) = 0 := by
      split <;> rfl
    have e5 : List.count Cmd.wavData
        (if p.adc_bit > 8 then [Cmd.widthWord] else []) = 0 := by
      split <;> rfl
    constructor
    · rw [← hpts, ← hmax]
      simp only [List.count_append, e1, e2, e3, e5, hcount]
      omega
    · intro j hj
      have hj2 : j < (Int.ceil (env.points / env.max_point)).toNat := by
        rw [hpts, hmax]
        exact hj
      have hm := wav_loop_mem_start env.pages env.max_point
        ((Int.ceil (env.points / env.max_point)).toNat) 0 acc hacc j hj2
      simp only [Nat.zero_add] at hm
      rw [← hmax]
      exact List.mem_append_right _ hm
  · intro F M env channel frame_num st st2 cmds tr sp hM hsp hF hFM hmax hread
    obtain ⟨sp2, acc, samples, ts, hp, hz, hacc, hdec, hts, hcmds, htr, hst⟩ :=
      seq_read_ok_shape env channel frame_num st st2 cmds tr hread
    have hsp2 : sp2 = sp := by
      rw [hp] at hsp
      exact (Option.some.injEq _ _).mp hsp
    subst hsp2
    subst hcmds
    have hceil : ((sp2.one_fram_pts : ℚ)) = (F : ℚ) := by
      rw [hF]
      push_cast
      ring
    have hcount := seq_loop_count env.pages env.max_point
      ((Int.ceil ((sp2.one_fram_pts : ℚ) / env.max_point)).toNat) 0 acc hacc
    have e1 : List.count Cmd.wavData [Cmd.wavSour channel, Cmd.wavStart 0, Cmd.wavPoint 0,
        Cmd.wavSequence frame_num 0, Cmd.wavPreamble] = 0 := rfl
    have e3 : List.count Cmd.wavData [Cmd.widthByte] = 0 := rfl
    have e2 : List.count Cmd.wavData
        (if (sp2.one_fram_pts : ℚ) > env.max_point then [Cmd.wavPoint env.max_point] else []) = 0 := by
      split <;> rfl
    have e5 : List.count Cmd.wavData
        (if sp2.pre.adc_bit > 8 then [Cmd.widthWord] else []) = 0 := by
      split <;> rfl
    constructor
    · rw [← hceil, ← hmax]
      simp only [List.count_append, e1, e2, e3, e5, hcount]
      omega
    · intro j hj
      have hj2 : j < (Int.ceil ((sp2.one_fram_pts : ℚ) / env.max_point)).toNat := by
        rw [hceil, hmax]
        exact hj
      have hm := seq_loop_mem_start env.pages env.max_point
        ((Int.ceil ((sp2.one_fram_pts : ℚ) / env.max_point)).toNat) 0 acc hacc j hj2
      simp only [Nat.zero_add] at hm
      rw [← hmax]
      exact List.mem_append_right _ hm


theorem pyIdxNorm_natCast (n a : ℕ) : pyIdxNorm n (a : ℤ) = min a n := by
  unfold pyIdxNorm
  rw [if_neg (by omega)]
  omega

theorem pySlice_natCast {α : Type} (bs : List α) (a b : ℕ) :
    pySlice bs (a : ℤ) (b : ℤ) = (bs.drop a).take (b - a) := by
  unfold pySlice
  rw [pyIdxNorm_natCast, pyIdxNorm_natCast]
  rcases le_or_lt a bs.length with ha | ha
  · rw [min_eq_left ha]
    rcases le_or_lt b bs.length with hb | hb
    · rw [min_eq_left hb]
    · rw [min_eq_right (le_of_lt hb)]
      rw [List.take_of_length_le (by simp [List.length_drop]),
          List.take_of_length_le (by simp [List.length_drop]; omega)]
  · rw [min_eq_right (le_of_lt ha)]
    dsimp only
    rw [List.drop_length, List.drop_eq_nil_of_le (le_of_lt ha)]
    simp

theorem words_be_length : ∀ bs : List ℕ, (words_be bs).length = bs.length / 2
  | [] => rfl
  | [_] => by simp [words_be]
  | b0 :: b1 :: rest => by
    unfold words_be
    simp only [List.length_cons, words_be_length rest]
    omega

theorem words_le_length : ∀ bs : List ℕ, (words_le bs).length = bs.length / 2
  | [] => rfl
  | [_] => by simp [words_le]
  | b0 :: b1 :: rest => by
    unfold words_le
    simp only [List.length_cons, words_le_length rest]
    omega


theorem extract_payload_framed (n : ℕ) (lenDigits payload : List ℕ)
    (hn : n ≤ 9) (hlen : lenDigits.length = n)
    (hval : decDigitsVal lenDigits = some payload.length) :
    extract_payload ([35, 48 + n] ++ (lenDigits ++ payload)) = some payload := by
  have hfind : bfind ([35, 48 + n] ++ (lenDigits ++ payload)) 35 = 0 := by
    simp [bfind]
  have e1 : pyGetElem ([35, 48 + n] ++ (lenDigits ++ payload)) ((0 : ℤ) + 2 - 1)
      = some (48 + n) := by
    have h1 : ((0 : ℤ) + 2 - 1) = 1 := by norm_num
    rw [h1]
    rfl
  have e2 : digitVal (48 + n) = some n := by
    unfold digitVal
    rw [if_pos (by omega)]
    congr 1
    omega
  have e3 : pySlice ([35, 48 + n] ++ (lenDigits ++ payload)) ((0 : ℤ) + 2)
      ((0 : ℤ) + 2 + (n : ℤ)) = lenDigits := by
    have h2 : ((0 : ℤ) + 2) = ((2 : ℕ) : ℤ) := by norm_num
    have h3 : ((0 : ℤ) + 2 + (n : ℤ)) = (((2 + n : ℕ)) : ℤ) := by push_cast; ring
    rw [h3, h2, pySlice_natCast]
    have h4 : (2 + n) - 2 = n := by omega
    rw [h4]
    show (lenDigits ++ payload).take n = lenDigits
    rw [← hlen, List.take_left]
  have e4 : pySlice ([35, 48 + n] ++ (lenDigits ++ payload)) ((0 : ℤ) + 2 + (n : ℤ))
      ((0 : ℤ) + 2 + (n : ℤ) + (payload.length : ℤ)) = payload := by
    have h2 : ((0 : ℤ) + 2 + (n : ℤ)) = (((2 + n : ℕ)) : ℤ) := by push_cast; ring
    have h3 : ((0 : ℤ) + 2 + (n : ℤ) + (payload.length : ℤ))
        = (((2 + n + payload.length : ℕ)) : ℤ) := by push_cast; ring
    rw [h3, h2, pySlice_natCast]
    have h4 : ([35, 48 + n] ++ (lenDigits ++ payload)).drop (2 + n)
        = payload := by
      have h5 : ([35, 48 + n] ++ (lenDigits ++ payload)).drop (2 + n)
          = ((lenDigits ++ payload).drop n) := by
        rw [show 2 + n = (n + 1) + 1 from by omega]
        show ((35 : ℕ) :: (48 + n) :: (lenDigits ++ payload)).drop ((n + 1) + 1)
          = (lenDigits ++ payload).drop n
        rw [List.drop_succ_cons, List.drop_succ_cons]
      rw [h5, ← hlen, List.drop_left]
    rw [h4]
    have h6 : 2 + n + payload.length - (2 + n) = payload.length := by omega
    rw [h6, List.take_length]
  unfold extract_payload
  simp only [hfind, e1, e2, e3, hval, e4, Option.bind_eq_bind, Option.some_bind]

theorem extract_payload_seq_framed (n : ℕ) (lenDigits payload : List ℕ)
    (hn : n ≤ 9) (hlen : lenDigits.length = n)
    (hstrip : rstrip ([35, 48 + n] ++ (lenDigits ++ payload))
      = [35, 48 + n] ++ (lenDigits ++ payload)) :
    extract_payload_seq ([35, 48 + n] ++ (lenDigits ++ payload)) = some payload := by
  have hfind : bfind ([35, 48 + n] ++ (lenDigits ++ payload)) 35 = 0 := by
    simp [bfind]
  have e1 : pySlice ([35, 48 + n] ++ (lenDigits ++ payload)) ((0 : ℤ) + 1) ((0 : ℤ) + 2)
      = [48 + n] := by
    have h2 : ((0 : ℤ) + 1) = ((1 : ℕ) : ℤ) := by norm_num
    have h3 : ((0 : ℤ) + 2) = ((2 : ℕ) : ℤ) := by norm_num
    rw [h2, h3, pySlice_natCast]
    rfl
  have e2 : decDigitsVal [48 + n] = some n := by
    unfold decDigitsVal
    rw [if_pos ⟨by simp, by simp; omega⟩]
    congr 1
    simp
  have e3 : pySlice ([35, 48 + n] ++ (lenDigits ++ payload)) ((0 : ℤ) + 2 + (n : ℤ))
      ((([35, 48 + n] ++ (lenDigits ++ payload)).length : ℕ) : ℤ) = payload := by
    have h2 : ((0 : ℤ) + 2 + (n : ℤ)) = (((2 + n : ℕ)) : ℤ) := by push_cast; ring
    rw [h2, pySlice_natCast]
    have h4 : ([35, 48 + n] ++ (lenDigits ++ payload)).drop (2 + n) = payload := by
      have h5 : ([35, 48 + n] ++ (lenDigits ++ payload)).drop (2 + n)
          = ((lenDigits ++ payload).drop n) := by
        rw [show 2 + n = (n + 1) + 1 from by omega]
        show ((35 : ℕ) :: (48 + n) :: (lenDigits ++ payload)).drop ((n + 1) + 1)
          = (lenDigits ++ payload).drop n
        rw [List.drop_succ_cons, List.drop_succ_cons]
      rw [h5, ← hlen, List.drop_left]
    rw [h4]
    apply List.take_of_length_le
    simp [hlen]
    omega
  unfold extract_payload_seq
  rw [hstrip]
  simp only [hfind, e1, e2, e3, Option.bind_eq_bind, Option.some_bind]

theorem wav_loop_concat (pages : List (List ℕ)) (mpp : ℚ) :
    ∀ (payloads : List (List ℕ)) (i : ℕ),
      (∀ j pl, payloads.get? j = some pl →
         ∃ page, pages.get? (i + j) = some page ∧ extract_payload page = some pl) →
      (wav_data_loop pages mpp i payloads.length).2 = some payloads.join := by
  intro payloads
  induction payloads with
  | nil => intro i _; rfl
  | cons pl rest ih =>
    intro i h
    obtain ⟨page, hp, he⟩ := h 0 pl rfl
    rw [Nat.add_zero] at hp
    show (wav_data_loop pages mpp i (rest.length + 1)).2 = _
    unfold wav_data_loop
    rw [hp]
    dsimp only
    rw [he]
    dsimp only
    have := ih (i + 1) (fun j pl2 hj => by
      obtain ⟨page2, hp2, he2⟩ := h (j + 1) pl2 hj
      refine ⟨page2, ?_, he2⟩
      rw [show i + 1 + j = i + (j + 1) from by omega]
      exact hp2)
    rw [this]
    rfl


/-- C2 (amended): only the sequence-frame read checks the accumulated
payload against the expected count — a mismatch there raises a decode error;
the single-acquisition read derives the sample count from the accumulated
byte length alone and never compares it with total_points, so it completes
with a trace of whatever length arrived. -/
theorem C2_length_amended :
    (∀ (env : ScopeEnv) (channel : ℤ) (st st2 : ChannelMap) (cmds : List Cmd) (tr : Trace),
       siglent_read_waveform_data env channel st = (st2, cmds, Except.ok tr) →
       ∃ acc, (wav_data_loop env.pages env.max_point 0
           (Int.ceil (env.points / env.max_point)).toNat).2 = some acc ∧
         tr.1.length = tr.2.length ∧
         ∃ p, siglent_parse_preamble (pySlice env.preamble_resp (bfind env.preamble_resp 35 + 11)
             (env.preamble_resp.length : ℤ)) = some p ∧
           tr.2.length = (if p.adc_bit > 8 then acc.length / 2 else acc.length)) ∧
    (∀ (env : SeqEnv) (channel frame_num : ℤ) (st : ChannelMap) (sp : SeqPreamble)
       (acc : List ℕ),
       siglent_parse_preamble_frames (pySlice env.preamble_resp (bfind env.preamble_resp 35 + 11)
         (env.preamble_resp.length : ℤ)) = some sp →
       ¬ env.max_point = 0 →
       (seq_data_loop env.pages env.max_point 0
          (Int.ceil ((sp.one_fram_pts : ℚ) / env.max_point)).toNat).2 = some acc →
       (acc.length : ℤ) ≠ (if sp.pre.adc_bit > 8 then 2 * sp.one_fram_pts else sp.one_fram_pts) →
       (read_sequence_frame env channel frame_num st).2.2 = Except.error ReadErr.decodeError) := by
  constructor
  · intro env channel st st2 cmds tr hread
    obtain ⟨p, acc, samples, hp, hz, hacc, hdec, hcmds, htr, hst⟩ :=
      siglent_read_ok_shape env channel st st2 cmds tr hread
    refine ⟨acc, hacc, ?_, p, hp, ?_⟩
    · subst htr
      simp [convert_trace]
    · subst htr
      unfold decode_samples_single at hdec
      by_cases ha : p.adc_bit > 8
      · rw [if_pos ha] at hdec
        unfold unpack_words_be at hdec
        split at hdec
        · injection hdec with hsame
          rw [if_pos ha, ← hsame]
          simp [convert_trace, words_be_length]
        · cases hdec
      · rw [if_neg ha] at hdec
        unfold unpack_signed_bytes at hdec
        split at hdec
        · injection hdec with hsame
          rw [if_neg ha, ← hsame]
          simp [convert_trace]
        · cases hdec
  · intro env channel frame_num st sp acc hsp hz hacc hne
    have hdec : decode_samples_seq sp.pre.adc_bit sp.one_fram_pts acc = none := by
      unfold decode_samples_seq unpack_words_native unpack_signed_bytes
      by_cases ha : sp.pre.adc_bit > 8
      · rw [if_pos ha] at hne ⊢
        rw [if_neg hne]
      · rw [if_neg ha] at hne ⊢
        rw [if_neg hne]
    unfold read_sequence_frame
    dsimp only
    rw [hsp]
    dsimp only
    rw [if_neg hz]
    rw [hacc]
    dsimp only
    rw [hdec]


unseal Rat.mul Rat.inv Rat.sub Rat.add in
set_option maxRecDepth 100000 in
/-- C2 counterexample: with total_points = 2 the single read's sole page
carries one byte; the read completes with a ONE-sample trace and no framing
error, instead of reporting the mismatch. -/
theorem C2_counterexample :
    c2env.points = 2 ∧
    (siglent_read_waveform_data c2env 1 []).2.2
      = Except.ok ([(-1 : ℚ)/1000000000], [65]) := by
  constructor
  · rfl
  · rfl

unseal Rat.mul Rat.inv Rat.sub Rat.add in
set_option maxRecDepth 100000 in
/-- C2 witness: the amended theorem applied to a complete 2-point single
read (trace lengths follow the byte count) and to a short sequence frame
(the count mismatch raises the decode error). -/
theorem C2_length_witness :
    c6tr.1.length = c6tr.2.length ∧
    (read_sequence_frame c2senv 1 1 []).2.2 = Except.error ReadErr.decodeError := by
  constructor
  · obtain ⟨acc, hacc, hlen, rest⟩ :=
      C2_length_amended.1 c6env 1 [] [(1, c6tr)] c6cmds c6tr (by rfl)
    exact hlen
  · exact C2_length_amended.2 c2senv 1 1 [] c6sp [65] (by decide) (by decide) (by decide)
      (by decide)

/-- C3 (amended): the single-acquisition reader appends exactly the payload
bytes given by each page's length field, and its loop accumulates the page
payloads in request order, so the reassembled buffer is their concatenation;
the sequence-frame reader ignores the length field and strips trailing ASCII
whitespace from the raw response first, so it returns exactly the payload
only when the framed response carries no trailing whitespace. -/
theorem C3_reassembly_amended :
    (∀ (n : ℕ) (lenDigits payload : List ℕ), n ≤ 9 → lenDigits.length = n →
       decDigitsVal lenDigits = some payload.length →
       extract_payload ([35, 48 + n] ++ (lenDigits ++ payload)) = some payload) ∧
    (∀ (pages : List (List ℕ)) (mpp : ℚ) (payloads : List (List ℕ)),
       (∀ j pl, payloads.get? j = some pl →
          ∃ page, pages.get? j = some page ∧ extract_payload page = some pl) →
       (wav_data_loop pages mpp 0 payloads.length).2 = some payloads.join) ∧
    (∀ (n : ℕ) (lenDigits payload : List ℕ), n ≤ 9 → lenDigits.length = n →
       rstrip ([35, 48 + n] ++ (lenDigits ++ payload))
         = [35, 48 + n] ++ (lenDigits ++ payload) →
       extract_payload_seq ([35, 48 + n] ++ (lenDigits ++ payload)) = some payload) := by
  refine ⟨extract_payload_framed, ?_, extract_payload_seq_framed⟩
  intro pages mpp payloads h
  exact wav_loop_concat pages mpp payloads 0
    (fun j pl hj => by rw [Nat.zero_add]; exact h j pl hj)

unseal Rat.mul Rat.inv Rat.sub Rat.add in
/-- C3 counterexample: a page framed as "#" "1" "1" plus the single payload
byte 0x0a (its length field says one byte) loses that byte in the
sequence-frame reader: the whitespace strip removes it and the loop appends
nothing. -/
theorem C3_counterexample :
    extract_payload_seq [35, 49, 49, 10] = some [] ∧
    seq_data_loop [[35, 49, 49, 10]] 1 0 1 = ([Cmd.wavStart 0, Cmd.wavData], some []) := by
  constructor
  · rfl
  · rfl

unseal Rat.mul Rat.inv Rat.sub Rat.add in
/-- C3 witness: the amended theorem applied to a one-page transfer with
payload [65]. -/
theorem C3_reassembly_witness :
    extract_payload [35, 49, 49, 65] = some [65] ∧
    (wav_data_loop [[35, 49, 49, 65]] 1 0 1).2 = some [65] := by
  constructor
  · exact C3_reassembly_amended.1 1 [49] [65] (by norm_num) rfl (by rfl)
  · have h := C3_reassembly_amended.2.1 [[35, 49, 49, 65]] 1 [[65]] ?_
    · exact h
    · intro j pl hj
      cases j with
      | zero =>
        simp at hj
        subst hj
        exact ⟨[35, 49, 49, 65], rfl, by rfl⟩
      | succ m =>
        simp at hj

/-- C7 (amended): a page whose framing announces zero payload bytes is not
an error: extraction returns the empty payload, and the page loop appends
nothing and continues with the next page request (the read can then complete
normally; in the sequence reader only the final exact-count decode can
reject the shortfall). -/
theorem C7_zero_payload_amended :
    (∀ (n : ℕ) (lenDigits : List ℕ), n ≤ 9 → lenDigits.length = n →
       decDigitsVal lenDigits = some 0 →
       extract_payload ([35, 48 + n] ++ lenDigits) = some []) ∧
    (∀ (pages : List (List ℕ)) (mpp : ℚ) (i k : ℕ) (page : List ℕ),
       pages.get? i = some page → extract_payload page = some [] →
       wav_data_loop pages mpp i (k + 1)
         = ([Cmd.wavStart ((i : ℚ) * mpp), Cmd.wavData]
              ++ (wav_data_loop pages mpp (i + 1) k).1,
            (wav_data_loop pages mpp (i + 1) k).2)) ∧
    (∀ (pages : List (List ℕ)) (mpp : ℚ) (i k : ℕ) (page : List ℕ),
       pages.get? i = some page → extract_payload_seq page = some [] →
       seq_data_loop pages mpp i (k + 1)
         = ([Cmd.wavStart ((i : ℚ) * mpp), Cmd.wavData]
              ++ (seq_data_loop pages mpp (i + 1) k).1,
            (seq_data_loop pages mpp (i + 1) k).2)) := by
  refine ⟨?_, ?_, ?_⟩
  · intro n lenDigits hn hlen hval
    have h := extract_payload_framed n lenDigits [] hn hlen (by simpa using hval)
    simpa using h
  · intro pages mpp i k page hp he
    conv_lhs => unfold wav_data_loop
    rw [hp]
    dsimp only
    rw [he]
    dsimp only
    congr 1
    cases h2 : (wav_data_loop pages mpp (i + 1) k).2 <;> rfl
  · intro pages mpp i k page hp he
    conv_lhs => unfold seq_data_loop
    rw [hp]
    dsimp only
    rw [he]
    dsimp only
    congr 1
    cases h2 : (seq_data_loop pages mpp (i + 1) k).2 <;> rfl

unseal Rat.mul Rat.inv Rat.sub Rat.add in
set_option maxRecDepth 100000 in
/-- C7 counterexample: a transfer whose first page returns zero payload
bytes continues to the second page (two data requests issued) and completes
with a normal, short trace — no premature-end-of-transfer error. -/
theorem C7_counterexample :
    (siglent_read_waveform_data c7env 1 []).2.2
      = Except.ok ([(-1 : ℚ)/1000000000], [65]) ∧
    ((siglent_read_waveform_data c7env 1 []).2.1).count Cmd.wavData = 2 := by
  constructor
  · rfl
  · rfl

unseal Rat.mul Rat.inv Rat.sub Rat.add in
/-- C7 witness: the amended theorem applied to the header-only page "#10"
and to a two-page loop whose first page is empty. -/
theorem C7_zero_payload_witness :
    extract_payload [35, 49, 48] = some [] ∧
    wav_data_loop [[35, 49, 48], [35, 49, 49, 65]] 1 0 2
      = ([Cmd.wavStart ((0 : ℚ) * 1), Cmd.wavData]
           ++ (wav_data_loop [[35, 49, 48], [35, 49, 49, 65]] 1 1 1).1,
         (wav_data_loop [[35, 49, 48], [35, 49, 49, 65]] 1 1 1).2) := by
  constructor
  · exact C7_zero_payload_amended.1 1 [48] (by norm_num) rfl (by rfl)
  · exact C7_zero_payload_amended.2.1 [[35, 49, 48], [35, 49, 49, 65]] 1 0 1 [35, 49, 48]
      rfl (by rfl)


/-- C5 (amended): the single-acquisition reader decodes a 16-bit payload as
big-endian signed words; the sequence-frame reader decodes it with NATIVE
byte order — little-endian on the hosts this code targets — not big-endian;
8-bit payloads decode bytewise in both.  In both readers the width
directives (BYTE, then additionally WORD exactly when adc_bits > 8 — two
directives, not one) are all issued before the first page request: the page
loop's commands consist solely of start-offset and data requests. -/
theorem C5_width_amended :
    (∀ (env : ScopeEnv) (channel : ℤ) (st st2 : ChannelMap) (cmds : List Cmd) (tr : Trace),
       siglent_read_waveform_data env channel st = (st2, cmds, Except.ok tr) →
       ∃ p acc,
         siglent_parse_preamble (pySlice env.preamble_resp (bfind env.preamble_resp 35 + 11)
           (env.preamble_resp.length : ℤ)) = some p ∧
         (wav_data_loop env.pages env.max_point 0
            (Int.ceil (env.points / env.max_point)).toNat).2 = some acc ∧
         (p.adc_bit > 8 →
            tr = convert_trace p.vdiv p.ofst p.interval p.delay p.tdiv p.code (words_be acc)) ∧
         (¬ p.adc_bit > 8 →
            tr = convert_trace p.vdiv p.ofst p.interval p.delay p.tdiv p.code
              (acc.map (fun b => toSigned 8 b))) ∧
         ∃ loopCmds,
           cmds = [Cmd.wavSour channel, Cmd.wavPreamble]
             ++ (if env.points > env.max_point then [Cmd.wavPoint env.max_point] else [])
             ++ [Cmd.widthByte]
             ++ (if p.adc_bit > 8 then [Cmd.widthWord] else [])
             ++ loopCmds ∧
           ∀ c ∈ loopCmds, c = Cmd.wavData ∨ ∃ q, c = Cmd.wavStart q) ∧
    (∀ (env : SeqEnv) (channel frame_num : ℤ) (st st2 : ChannelMap) (cmds : List Cmd)
       (tr : Trace),
       read_sequence_frame env channel frame_num st = (st2, cmds, Except.ok tr) →
       ∃ sp acc,
         siglent_parse_preamble_frames (pySlice env.preamble_resp
           (bfind env.preamble_resp 35 + 11) (env.preamble_resp.length : ℤ)) = some sp ∧
         (seq_data_loop env.pages env.max_point 0
            (Int.ceil ((sp.one_fram_pts : ℚ) / env.max_point)).toNat).2 = some acc ∧
         (sp.pre.adc_bit > 8 →
            tr.2 = (words_le acc).map
              (fun (cv : ℤ) => (cv : ℚ) / sp.pre.code * sp.pre.vdiv - sp.pre.ofst)) ∧
         (¬ sp.pre.adc_bit > 8 →
            tr.2 = (acc.map (fun b => toSigned 8 b)).map
              (fun (cv : ℤ) => (cv : ℚ) / sp.pre.code * sp.pre.vdiv - sp.pre.ofst)) ∧
         ∃ loopCmds,
           cmds = [Cmd.wavSour channel, Cmd.wavStart 0, Cmd.wavPoint 0,
               Cmd.wavSequence frame_num 0, Cmd.wavPreamble]
             ++ (if (sp.one_fram_pts : ℚ) > env.max_point then [Cmd.wavPoint env.max_point]
                 else [])
             ++ [Cmd.widthByte]
             ++ (if sp.pre.adc_bit > 8 then [Cmd.widthWord] else [])
             ++ loopCmds ∧
           ∀ c ∈ loopCmds, c = Cmd.wavData ∨ ∃ q, c = Cmd.wavStart q) := by
  constructor
  · intro env channel st st2 cmds tr hread
    obtain ⟨p, acc, samples, hp, hz, hacc, hdec, hcmds, htr, hst⟩ :=
      siglent_read_ok_shape env channel st st2 cmds tr hread
    refine ⟨p, acc, hp, hacc, ?_, ?_, ?_⟩
    · intro ha
      unfold decode_samples_single at hdec
      rw [if_pos ha] at hdec
      unfold unpack_words_be at hdec
      split at hdec
      · injection hdec with hsame
        rw [htr, ← hsame]
      · cases hdec
    · intro ha
      unfold decode_samples_single at hdec
      rw [if_neg ha] at hdec
      unfold unpack_signed_bytes at hdec
      split at hdec
      · injection hdec with hsame
        rw [htr, ← hsame]
      · cases hdec
    · refine ⟨(wav_data_loop env.pages env.max_point 0
        (Int.ceil (env.points / env.max_point)).toNat).1, hcmds, ?_⟩
      exact wav_loop_cmds_shape env.pages env.max_point _ 0
  · intro env channel frame_num st st2 cmds tr hread
    obtain ⟨sp, acc, samples, ts, hp, hz, hacc, hdec, hts, hcmds, htr, hst⟩ :=
      seq_read_ok_shape env channel frame_num st st2 cmds tr hread
    refine ⟨sp, acc, hp, hacc, ?_, ?_, ?_⟩
    · intro ha
      unfold decode_samples_seq at hdec
      rw [if_pos ha] at hdec
      unfold unpack_words_native at hdec
      split at hdec
      · injection hdec with hsame
        rw [htr, ← hsame]
      · cases hdec
    · intro ha
      unfold decode_samples_seq at hdec
      rw [if_neg ha] at hdec
      unfold unpack_signed_bytes at hdec
      split at hdec
      · injection hdec with hsame
        rw [htr, ← hsame]
      · cases hdec
    · refine ⟨(seq_data_loop env.pages env.max_point 0
        (Int.ceil ((sp.one_fram_pts : ℚ) / env.max_point)).toNat).1, hcmds, ?_⟩
      exact seq_loop_cmds_shape env.pages env.max_point _ 0

unseal Rat.mul Rat.inv Rat.sub Rat.add in
set_option maxRecDepth 100000 in
/-- C5 counterexample: the 2-byte 16-bit sample [0x01, 0x00] would be 256 if
decoded big-endian, but the sequence-frame read returns the voltage 1 (unit
scaling): the payload was decoded little-endian (native order), refuting
"decoded as 16-bit signed big-endian in every read". -/
theorem C5_width_counterexample :
    words_be [1, 0] = [256] ∧
    (read_sequence_frame c5seqEnv 1 1 []).2.2
      = Except.ok ([(-1 : ℚ)/1000000000], [1]) := by
  constructor
  · rfl
  · rfl

unseal Rat.mul Rat.inv Rat.sub Rat.add in
set_option maxRecDepth 100000 in
/-- C5 witness: the amended theorem applied to a complete 8-bit single read
and to the 16-bit sequence-frame read of `c5seqEnv`. -/
theorem C5_width_witness :
    (∃ p acc,
       siglent_parse_preamble (pySlice c6env.preamble_resp (bfind c6env.preamble_resp 35 + 11)
         (c6env.preamble_resp.length : ℤ)) = some p ∧
       (wav_data_loop c6env.pages c6env.max_point 0
          (Int.ceil (c6env.points / c6env.max_point)).toNat).2 = some acc ∧
       (p.adc_bit > 8 →
          c6tr = convert_trace p.vdiv p.ofst p.interval p.delay p.tdiv p.code (words_be acc)) ∧
       (¬ p.adc_bit > 8 →
          c6tr = convert_trace p.vdiv p.ofst p.interval p.delay p.tdiv p.code
            (acc.map (fun b => toSigned 8 b))) ∧
       ∃ loopCmds,
         c6cmds = [Cmd.wavSour 1, Cmd.wavPreamble]
           ++ (if c6env.points > c6env.max_point then [Cmd.wavPoint c6env.max_point] else [])
           ++ [Cmd.widthByte]
           ++ (if p.adc_bit > 8 then [Cmd.widthWord] else [])
           ++ loopCmds ∧
         ∀ c ∈ loopCmds, c = Cmd.wavData ∨ ∃ q, c = Cmd.wavStart q) ∧
    (∃ sp acc,
       siglent_parse_preamble_frames (pySlice c5seqEnv.preamble_resp
         (bfind c5seqEnv.preamble_resp 35 + 11) (c5seqEnv.preamble_resp.length : ℤ)) = some sp ∧
       (seq_data_loop c5seqEnv.pages c5seqEnv.max_point 0
          (Int.ceil ((sp.one_fram_pts : ℚ) / c5seqEnv.max_point)).toNat).2 = some acc ∧
       (sp.pre.adc_bit > 8 →
          c5str.2 = (words_le acc).map
            (fun (cv : ℤ) => (cv : ℚ) / sp.pre.code * sp.pre.vdiv - sp.pre.ofst)) ∧
       (¬ sp.pre.adc_bit > 8 →
          c5str.2 = (acc.map (fun b => toSigned 8 b)).map
            (fun (cv : ℤ) => (cv : ℚ) / sp.pre.code * sp.pre.vdiv - sp.pre.ofst)) ∧
       ∃ loopCmds,
         c5scmds = [Cmd.wavSour 1, Cmd.wavStart 0, Cmd.wavPoint 0, Cmd.wavSequence 1 0,
             Cmd.wavPreamble]
           ++ (if (sp.one_fram_pts : ℚ) > c5seqEnv.max_point then [Cmd.wavPoint c5seqEnv.max_point]
               else [])
           ++ [Cmd.widthByte]
           ++ (if sp.pre.adc_bit > 8 then [Cmd.widthWord] else [])
           ++ loopCmds ∧
         ∀ c ∈ loopCmds, c = Cmd.wavData ∨ ∃ q, c = Cmd.wavStart q) :=
  ⟨C5_width_amended.1 c6env 1 [] [(1, c6tr)] c6cmds c6tr (by rfl),
   C5_width_amended.2 c5seqEnv 1 1 [] [(1, c5str)] c5scmds c5str (by rfl)⟩

unseal Rat.mul Rat.inv Rat.sub Rat.add in
set_option maxRecDepth 100000 in
/-- C6 witness: the pagination theorem applied to a complete 2-point,
1-point-per-page transfer of each reader: two page requests, offsets 0 and
1. -/
theorem C6_pagination_witness :
    c6cmds.count Cmd.wavData = (Int.ceil ((2 : ℚ) / (1 : ℚ))).toNat ∧
    Cmd.wavStart (((0 : ℕ) : ℚ) * ((1 : ℕ) : ℚ)) ∈ c6cmds ∧
    c6scmds.count Cmd.wavData = (Int.ceil ((2 : ℚ) / (1 : ℚ))).toNat := by
  have h1 := C6_pagination.1 2 1 c6env 1 [] [(1, c6tr)] c6cmds c6tr
    (by norm_num) (by norm_num) rfl rfl (by rfl)
  have h2 := C6_pagination.2 2 1 c6seqEnv 1 1 [] [(1, c6tr)] c6scmds c6tr c6sp
    (by norm_num) (by rfl) (by rfl) (by norm_num) rfl (by rfl)
  exact ⟨h1.1, h1.2 0 (by decide), h2.1⟩

end SiglentScope
